import Mathlib

/-!
Verification development for the Spiritual Literature Search engine.

The TypeScript sources are shallowly embedded here:
* shared/schema.ts        — the canonical data model (namespace Schema)
* server/webSearch.ts     — query interpreter, web adapters, dedup (namespace WebSearch)
* server/aiSearch.ts, web-aggregating version (namespace AiSearch)
* server/aiSearch.ts, grounded-catalog version (namespace AiSearchGrounded)
* server/routes.ts        — response assembly (buildSearchResponse)

External effects (HTTP fetches, the Gemini call, JSON.parse) are passed in as
explicit function arguments; every remaining computation is translated
directly from the source.  JavaScript strings are modelled as Lean Strings
with hand-rolled ASCII primitives mirroring the exact library calls used
(toLowerCase, trim, split, includes, startsWith, indexOf, lastIndexOf).
-/

/-! ## JavaScript string primitives -/

/-- The backquote character, written via its code point. -/
def backquoteChar : Char := Char.ofNat 96

/-- Opening curly brace character. -/
def lbraceChar : Char := Char.ofNat 123

/-- Closing curly brace character. -/
def rbraceChar : Char := Char.ofNat 125

/-- En-dash, one of the separator characters in the split regex. -/
def enDashChar : Char := Char.ofNat 8211

/-- JavaScript word character for the regex word-boundary assertion:
[A-Za-z0-9_]. -/
def jsIsWordChar (c : Char) : Bool := c.isAlphanum || c = '_'

/-- String.prototype.toLowerCase restricted to ASCII (all catalogue data and
queries in scope are ASCII). -/
def toLowerS (s : String) : String := String.mk (s.toList.map Char.toLower)

/-- String.prototype.toUpperCase restricted to ASCII. -/
def toUpperS (s : String) : String := String.mk (s.toList.map Char.toUpper)

/-- JavaScript String.prototype.trim on a character list. -/
def jsTrimL (s : List Char) : List Char :=
  ((s.dropWhile Char.isWhitespace).reverse.dropWhile Char.isWhitespace).reverse

/-- String.prototype.trim. -/
def jsTrim (s : String) : String := String.mk (jsTrimL s.toList)

/-- Does the list start with the given first list (String.prototype.startsWith
on character lists)? -/
def firstIsPrefix : List Char → List Char → Bool
  | [], _ => true
  | _ :: _, [] => false
  | c :: cs, d :: ds => c = d && firstIsPrefix cs ds

/-- String.prototype.includes: the needle occurs contiguously in the hay. -/
def hasSubL (hay needle : List Char) : Bool :=
  match hay with
  | [] => needle.isEmpty
  | _ :: t => firstIsPrefix needle hay || hasSubL t needle

/-- String.prototype.includes on Strings. -/
def strIncludes (hay needle : String) : Bool := hasSubL hay.toList needle.toList

/-- String.prototype.startsWith on Strings. -/
def strStarts (s pre : String) : Bool := firstIsPrefix pre.toList s.toList

/-- String.prototype.indexOf for a substring needle: index of the first
occurrence. -/
def idxOfSub (hay needle : List Char) : Option Nat :=
  match hay with
  | [] => if needle.isEmpty then some 0 else none
  | _ :: t =>
      if firstIsPrefix needle hay then some 0
      else (idxOfSub t needle).map (· + 1)

/-- String.prototype.lastIndexOf(c, bound): the largest index not exceeding
bound at which character c occurs. -/
def lastIdxOfCharLe (c : Char) (s : List Char) (bound : Nat) : Option Nat :=
  (List.range (bound + 1)).foldl
    (fun acc i => if s.get? i = some c then some i else acc) none

/-- Recursion core of the whitespace split; each step strips one token and
the following separator run, so fuel equal to the length always suffices. -/
def splitWsRunsGo (fuel : Nat) (s : List Char) : List (List Char) :=
  match fuel with
  | 0 => [s]
  | f + 1 =>
      match s.dropWhile (fun c => !c.isWhitespace) with
      | [] => [s.takeWhile (fun c => !c.isWhitespace)]
      | _ :: t =>
          s.takeWhile (fun c => !c.isWhitespace) ::
            splitWsRunsGo f (t.dropWhile Char.isWhitespace)

/-- split(/\s+/): JavaScript splits at each maximal run of whitespace; a run
touching either end of the string contributes an empty piece there. -/
def splitWsRuns (s : List Char) : List (List Char) :=
  splitWsRunsGo s.length s

/-- Case-insensitive match (the regex i flag) of a literal token at the head
of the input; returns the remainder when the token matches and is followed by
a word boundary (end of input or a non-word character). -/
def matchTokenCI (tok : List Char) (s : List Char) : Option (List Char) :=
  match tok, s with
  | [], rest =>
      match rest with
      | [] => some []
      | d :: _ => if jsIsWordChar d then none else some rest
  | _ :: _, [] => none
  | c :: cs, d :: ds =>
      if c.toLower = d.toLower then matchTokenCI cs ds else none

/-- One attempt of the filler regex /\bbooks?\b|\bbooklist\b/i at the current
position (the leading boundary is checked by the caller): the alternation
tries the greedy "books", then "book", then "booklist". -/
def fillerMatch (s : List Char) : Option (List Char) :=
  match matchTokenCI "books".toList s with
  | some r => some r
  | none =>
      match matchTokenCI "book".toList s with
      | some r => some r
      | none => matchTokenCI "booklist".toList s

/-- Global replace of /\bbooks?\b|\bbooklist\b/gi with the empty string.
prevW records whether the previous kept character was a word character
(the \b look-behind); fuel bounds recursion by the input length. -/
def stripFillerGo (fuel : Nat) (prevW : Bool) (s : List Char) : List Char :=
  match fuel, s with
  | 0, rest => rest
  | _ + 1, [] => []
  | f + 1, c :: rest =>
      if prevW then c :: stripFillerGo f (jsIsWordChar c) rest
      else
        match fillerMatch (c :: rest) with
        | some r => stripFillerGo f true r
        | none => c :: stripFillerGo f (jsIsWordChar c) rest

/-- query.replace(/\bbooks?\b|\bbooklist\b/gi, ""). -/
def stripFiller (s : String) : String :=
  String.mk (stripFillerGo s.toList.length false s.toList)

/-- JavaScript truthiness of an optional string: undefined and "" are falsy. -/
def truthyS : Option String → Bool
  | none => false
  | some s => s ≠ ""

/-! ## shared/schema.ts — data model -/

namespace Schema

/-- The bookSources enum of shared/schema.ts. -/
inductive BookSource where
  | exotic_india
  | gita_press
  | chaukhamba
  | archive_org
  | amazon
  | flipkart
  | bookish_santa
  | vedic_books
  | mlbd
  | google_books
  | web_search
deriving DecidableEq, Repr

/-- The Book entity of shared/schema.ts (contextualSnippets carries chapter
and text fields, flattened here to pairs). -/
structure Book where
  id : String
  title : String
  author : Option String
  description : String
  aiDescription : Option String
  source : BookSource
  sourceUrl : String
  price : Option Rat
  currency : String
  isAvailable : Bool
  language : String
  category : Option String
  imageUrl : Option String
  tableOfContents : List String
  theologicalTags : List String
  keyTopics : List String
deriving DecidableEq, Repr

/-- The matchConfidenceTiers enum. -/
inductive MatchConfidenceTier where
  | strong
  | good
  | potential
  | weak
deriving DecidableEq, Repr

/-- The SearchResult entity of shared/schema.ts. -/
structure SearchResult where
  book : Book
  relevanceScore : Int
  matchReason : Option String
  confidenceTier : Option MatchConfidenceTier
  citationSnippet : Option String
  citationLocation : Option String
  matchedTopics : Option (List String)
  isGrounded : Option Bool
deriving DecidableEq, Repr

/-- The SearchResponse entity of shared/schema.ts. -/
structure SearchResponse where
  results : List SearchResult
  query : String
  totalResults : Nat
  searchTime : Rat
deriving DecidableEq, Repr

/-- routes.ts builds the response from the scorer output: totalResults is
results.length. -/
def buildSearchResponse (query : String) (results : List SearchResult)
    (searchTime : Rat) : SearchResponse :=
  { results := results
    query := query
    totalResults := results.length
    searchTime := searchTime }

/-- A neutral book value used to write concrete witnesses compactly. -/
def blankBook : Book :=
  { id := ""
    title := ""
    author := none
    description := ""
    aiDescription := none
    source := BookSource.exotic_india
    sourceUrl := ""
    price := none
    currency := "INR"
    isAvailable := true
    language := "Sanskrit"
    category := none
    imageUrl := none
    tableOfContents := []
    theologicalTags := []
    keyTopics := [] }

end Schema

/-! ## Stable sorting

JavaScript Array.prototype.sort is stable and every comparator in scope has
the form (a, b) => score(b) - score(a), i.e. a stable descending sort keyed
by a per-element score.  It is modelled by stable insertion sort. -/

/-- Insert into a descending-sorted list, before the first element whose
score is not larger (so earlier elements win ties, as a stable sort does). -/
def insertByDesc (score : α → Int) (x : α) : List α → List α
  | [] => [x]
  | y :: ys => if score y ≤ score x then x :: y :: ys else y :: insertByDesc score x ys

/-- Stable sort, descending by score. -/
def stableSortByDesc (score : α → Int) (l : List α) : List α :=
  l.foldr (insertByDesc score) []

/-! ## server/webSearch.ts -/

namespace WebSearch

open Schema

/-- The separator class of the split regex /[,\-–:|]/. -/
def isSepChar (c : Char) : Bool :=
  c = ',' || c = '-' || c = enDashChar || c = ':' || c = '|'

/-- The fixed topic vocabulary of parseQueryAdvanced. -/
def topicKeywords : List String :=
  ["meditation", "yoga", "tantra", "vedanta", "buddhism", "zen",
   "mindfulness", "chakra", "kundalini", "advaita", "non-duality",
   "sufism", "mysticism", "biography", "philosophy"]

/-- The fixed list of well-known author names. -/
def knownAuthors : List String :=
  ["osho", "sadhguru", "krishnamurti", "ramana", "vivekananda", "aurobindo"]

/-- The fixed list of series indicator terms. -/
def seriesIndicators : List String :=
  ["sri", "vidya", "gita", "upanishad", "sutra", "yoga"]

/-- The structured intent produced by parseQueryAdvanced. -/
structure ParsedQuery where
  author : Option String
  title : Option String
  topics : List String
deriving DecidableEq, Repr

/-- The cleaned query: filler tokens removed, then trimmed. -/
def cleanedOf (query : String) : String := jsTrim (stripFiller query)

/-- cleaned.split(/[,\-–:|]/).map(p => p.trim()).filter(Boolean). -/
def partsOf (query : String) : List String :=
  ((List.splitOnP isSepChar (cleanedOf query).toList).map
    (fun p => String.mk (jsTrimL p))).filter (fun s => s ≠ "")

/-- cleaned.split(/\s+/).filter(Boolean). -/
def wordsOf (query : String) : List String :=
  ((splitWsRuns (cleanedOf query).toList).map String.mk).filter (fun s => s ≠ "")

/-- authorPart = cleaned.substring(0, titleStart).replace(/[,\-–:|]$/g, ""):
the anchored global replace removes at most one trailing separator char. -/
def dropTrailingSep (s : List Char) : List Char :=
  match s.reverse with
  | [] => []
  | c :: rest => if isSepChar c then rest.reverse else s

/-- The series-indicator loop of parseQueryAdvanced: for the first indicator
contained in the lowercased query that admits a word-boundary split with
non-empty author and title parts, commit that split. -/
def trySeriesInds (cleaned lowerQuery : String) : List String → Option (String × String)
  | [] => none
  | ind :: rest =>
      if strIncludes lowerQuery ind then
        match idxOfSub lowerQuery.toList ind.toList with
        | none => trySeriesInds cleaned lowerQuery rest
        | some idx =>
            match lastIdxOfCharLe ' ' lowerQuery.toList idx with
            | none => trySeriesInds cleaned lowerQuery rest
            | some titleStart =>
                let titlePart := jsTrim (String.mk (cleaned.toList.drop titleStart))
                let authorPart :=
                  jsTrim (String.mk (dropTrailingSep (cleaned.toList.take titleStart)))
                if authorPart ≠ "" ∧ titlePart ≠ "" then some (authorPart, titlePart)
                else trySeriesInds cleaned lowerQuery rest
      else trySeriesInds cleaned lowerQuery rest

/-- The heuristics applied after the separator-split and "by" checks fail:
known-author prefix, then series indicators, else the whole cleaned string
becomes the title. -/
def heuristicTail (cleaned lowerQuery : String) (topics : List String)
    (words : List String) : ParsedQuery :=
  if words.length ≥ 3 then
    if knownAuthors.any (fun a => strStarts lowerQuery a) then
      { author := some (String.intercalate " " (words.take 2))
        title :=
          if words.length > 2 then some (String.intercalate " " (words.drop 2)) else none
        topics := topics }
    else
      match trySeriesInds cleaned lowerQuery seriesIndicators with
      | some (a, t) => { author := some a, title := some t, topics := topics }
      | none => { author := none, title := some cleaned, topics := topics }
  else { author := none, title := some cleaned, topics := topics }

/-- parseQueryAdvanced of server/webSearch.ts. -/
def parseQueryAdvanced (query : String) : ParsedQuery :=
  let cleaned := cleanedOf query
  let lowerQuery := toLowerS cleaned
  let topics := topicKeywords.filter (fun t => strIncludes lowerQuery t)
  match partsOf query with
  | p0 :: p1 :: ps =>
      { author := some p0
        title := some (String.intercalate " " (p1 :: ps))
        topics := topics }
  | _ =>
      let words := wordsOf query
      match words.findIdx? (fun w => toLowerS w = "by") with
      | some i =>
          if 0 < i ∧ i + 1 < words.length then
            { author := some (String.intercalate " " (words.drop (i + 1)))
              title := some (String.intercalate " " (words.take i))
              topics := topics }
          else heuristicTail cleaned lowerQuery topics words
      | none => heuristicTail cleaned lowerQuery topics words

/-- Deduplication key: case-insensitive title and author joined with a dash. -/
def dedupKey (b : Book) : String :=
  toLowerS b.title ++ "-" ++ toLowerS (b.author.getD "")

/-- The seen-set loop of deduplicateBooks. -/
def deduplicateBooksGo (seen : List String) : List Book → List Book
  | [] => []
  | b :: rest =>
      if seen.contains (dedupKey b) then deduplicateBooksGo seen rest
      else b :: deduplicateBooksGo (dedupKey b :: seen) rest

/-- deduplicateBooks of server/webSearch.ts. -/
def deduplicateBooks (books : List Book) : List Book :=
  deduplicateBooksGo [] books

/-- A second definition following the spec words for comparison: keep the
first-seen candidate for every key, discard later ones. -/
def specKeepFirstByKey : List Book → List Book
  | [] => []
  | b :: rest =>
      b :: specKeepFirstByKey (rest.filter (fun x => dedupKey x ≠ dedupKey b))
termination_by l => l.length
decreasing_by
  have := List.length_filter_le (fun x => dedupKey x ≠ dedupKey b) rest
  simp only [List.length_cons]
  omega

/-- The per-book score inside the rankByAuthorAndTopics comparator. -/
def rankScore (author : Option String) (topics : List String) (b : Book) : Int :=
  (if truthyS author &&
      (b.author.isSome && strIncludes (toLowerS (b.author.getD "")) (toLowerS (author.getD "")))
    then 50 else 0)
  + (if topics.length > 0 then
      10 * ((topics.filter (fun t =>
        strIncludes
          (toLowerS (b.title ++ " " ++ b.description ++ " " ++
            String.intercalate " " b.keyTopics)) t)).length : Int)
     else 0)
  + (if b.source = BookSource.web_search then 5 else 0)

/-- rankByAuthorAndTopics of server/webSearch.ts. -/
def rankByAuthorAndTopics (books : List Book) (author : Option String)
    (topics : List String) : List Book :=
  if ¬ truthyS author ∧ topics.length = 0 then books
  else stableSortByDesc (rankScore author topics) books

/-- The deterministic tail of searchWeb: the two sub-searches are passed in
as already-fetched lists (each fails soft to []); then combine, deduplicate,
rank, and cap. -/
def searchWeb (query : String) (openLibraryBooks googleSearchBooks : List Book)
    (maxResults : Nat) : List Book :=
  let p := parseQueryAdvanced query
  let allBooks := openLibraryBooks ++ googleSearchBooks
  let deduplicatedBooks := deduplicateBooks allBooks
  let ranked := rankByAuthorAndTopics deduplicatedBooks p.author p.topics
  ranked.take maxResults

end WebSearch

/-! ## server/webSearch.ts — Open Library adapter -/

namespace WebSearch

open Schema

/-- One raw document of the Open Library search payload; absent JSON fields
are none. -/
structure OLDoc where
  title : Option String
  author_name : Option (List String)
  publisher : Option String
  isbn : Option (List String)
  key : Option String
  subject : Option (List String)
  first_publish_year : Option Nat
  first_sentence : Option (List String)
  language : Option (List String)
deriving DecidableEq, Repr

/-- arr?.[0] on an optional array. -/
def jsFirstElem (l : Option (List String)) : Option String :=
  match l with
  | none => none
  | some [] => none
  | some (x :: _) => some x

/-- arr?.[0] followed by a truthiness test ("" is falsy). -/
def jsFirstTruthy (l : Option (List String)) : Option String :=
  match jsFirstElem l with
  | none => none
  | some x => if x = "" then none else some x

/-- The doc filter of searchOpenLibrary: doc.title && (doc.author_name ||
doc.publisher) && (doc.isbn || doc.key); note a present array is truthy even
when empty. -/
def olDocOk (doc : OLDoc) : Bool :=
  truthyS doc.title && (doc.author_name.isSome || truthyS doc.publisher)
    && (doc.isbn.isSome || truthyS doc.key)

/-- The fixed vocabulary scanned by extractTagsFromTitle. -/
def spiritualConcepts : List String :=
  ["vedanta", "advaita", "yoga", "meditation", "tantra", "kundalini",
   "bhakti", "karma", "dharma", "moksha", "samadhi", "chakra", "mantra",
   "prana", "atman", "brahman", "shakti", "shiva", "vishnu", "krishna",
   "rama", "buddhism", "zen", "mindfulness", "upanishad", "gita", "veda",
   "sutra", "spiritual", "enlightenment", "consciousness"]

/-- concept.charAt(0).toUpperCase() + concept.slice(1). -/
def capFirst (s : String) : String :=
  match s.toList with
  | [] => ""
  | c :: rest => String.mk (c.toUpper :: rest)

/-- extractTagsFromTitle of server/webSearch.ts. -/
def extractTagsFromTitle (title : String) : List String :=
  (spiritualConcepts.filter (fun c => strIncludes (toLowerS title) c)).map capFirst

/-- The fixed language-code table of mapOpenLibraryLanguage. -/
def olLanguageMap : List (String × String) :=
  [("eng", "English"), ("hin", "Hindi"), ("san", "Sanskrit"),
   ("ben", "Bengali"), ("tam", "Tamil"), ("tel", "Telugu"),
   ("mar", "Marathi"), ("guj", "Gujarati"), ("pan", "Punjabi"),
   ("deu", "German"), ("fra", "French")]

/-- mapOpenLibraryLanguage: table lookup, unknown codes pass through
uppercased, absent or empty codes default to English. -/
def mapOpenLibraryLanguage (langCode : Option String) : String :=
  match langCode with
  | none => "English"
  | some lc =>
      if lc = "" then "English"
      else
        match olLanguageMap.find? (fun p => p.1 = lc) with
        | some p => p.2
        | none => toUpperS lc

/-- String.prototype.replace with a string pattern: remove the first
occurrence of the pattern. -/
def removeFirstSub (s sub : List Char) : List Char :=
  match s with
  | [] => []
  | c :: t =>
      if firstIsPrefix sub s then s.drop sub.length else c :: removeFirstSub t sub

/-- doc.key?.replace("/works/", "") || doc.key, interpolated into the id (an
absent key stringifies to "undefined"). -/
def olKeyPart (key : Option String) : String :=
  match key with
  | none => "undefined"
  | some k =>
      let r := String.mk (removeFirstSub k.toList "/works/".toList)
      if r = "" then k else r

/-- doc.author_name?.join(", ") || "Unknown Author". -/
def olAuthor (an : Option (List String)) : String :=
  match an with
  | none => "Unknown Author"
  | some l =>
      let j := String.intercalate ", " l
      if j = "" then "Unknown Author" else j

/-- doc.first_publish_year || "Unknown" (the year 0 is falsy). -/
def olYear (y : Option Nat) : String :=
  match y with
  | none => "Unknown"
  | some 0 => "Unknown"
  | some n => toString n

/-- convertOpenLibraryToBook of server/webSearch.ts. -/
def convertOpenLibraryToBook (doc : OLDoc) : Book :=
  let isbn := (jsFirstTruthy doc.isbn).getD ""
  { id := "openlibrary_" ++ olKeyPart doc.key
    title := doc.title.getD ""
    author := some (olAuthor doc.author_name)
    description :=
      (jsFirstTruthy doc.first_sentence).getD
        ("Book from Open Library database. Published in " ++
          olYear doc.first_publish_year ++ ".")
    aiDescription := none
    source := BookSource.web_search
    sourceUrl := "https://openlibrary.org" ++ doc.key.getD "undefined"
    price := none
    currency := "USD"
    isAvailable := true
    language := mapOpenLibraryLanguage (jsFirstElem doc.language)
    category := some ((jsFirstTruthy doc.subject).getD "Spirituality")
    imageUrl :=
      if isbn ≠ "" then
        some ("https://covers.openlibrary.org/b/isbn/" ++ isbn ++ "-M.jpg")
      else none
    tableOfContents := []
    theologicalTags := extractTagsFromTitle (doc.title.getD "")
    keyTopics := doc.subject.getD [] }

/-- The single outbound request searchOpenLibrary builds: author-structured
parameters when a truthy author was parsed, the raw query otherwise; the
limit parameter is maxResults * 2. -/
inductive OLRequest where
  | structured (author : String) (title : Option String) (limit : Nat)
  | general (q : String) (limit : Nat)
deriving DecidableEq, Repr

/-- The request-shaping branch of searchOpenLibrary. -/
def olRequest (query : String) (maxResults : Nat) : OLRequest :=
  let p := parseQueryAdvanced query
  match p.author with
  | some a =>
      if a ≠ "" then
        OLRequest.structured a (if truthyS p.title then p.title else none)
          (maxResults * 2)
      else OLRequest.general query (maxResults * 2)
  | none => OLRequest.general query (maxResults * 2)

/-- The response-processing tail of searchOpenLibrary: a failed fetch or
missing/empty docs array yields []; otherwise filter and convert. -/
def processDocs (fetched : Option (List OLDoc)) : List Book :=
  match fetched with
  | none => []
  | some docs =>
      if docs.isEmpty then []
      else (docs.filter olDocOk).map convertOpenLibraryToBook

/-- searchOpenLibrary of server/webSearch.ts, with the HTTP fetch passed in
as an oracle from the request actually issued to the decoded docs array
(none = transport error, non-ok status, or missing docs). -/
def searchOpenLibrary (oracle : OLRequest → Option (List OLDoc))
    (query : String) (maxResults : Nat) : List Book :=
  processDocs (oracle (olRequest query maxResults))

end WebSearch

/-! ## aiSearch.ts — JSON extraction from the model response

Both aiSearch versions extract with the same two regexes:
first /```(?:json)?\s*([\s\S]*?)```/ (fenced code block), then
/\{[\s\S]*\}/ (first opening brace to last closing brace). -/

/-- Three backquotes at the head of the list. -/
def startsWithTicks (s : List Char) : Bool :=
  firstIsPrefix [backquoteChar, backquoteChar, backquoteChar] s

/-- The lazy capture group: everything before the next fence, failing when no
closing fence exists. -/
def captureToTicks : List Char → Option (List Char)
  | [] => none
  | c :: rest =>
      if startsWithTicks (c :: rest) then some []
      else (captureToTicks rest).map (c :: ·)

/-- Attempt of the fenced-block regex anchored at the current position:
literal fence, optional literal json, greedy whitespace, lazy capture,
closing fence. -/
def fencedAt (s : List Char) : Option (List Char) :=
  if startsWithTicks s then
    let afterTicks := s.drop 3
    let afterJson :=
      if firstIsPrefix "json".toList afterTicks then afterTicks.drop 4 else afterTicks
    captureToTicks (afterJson.dropWhile Char.isWhitespace)
  else none

/-- Leftmost match of the fenced-block regex. -/
def findFenced : List Char → Option (List Char)
  | [] => none
  | c :: rest =>
      match fencedAt (c :: rest) with
      | some cap => some cap
      | none => findFenced rest

/-- Largest index at which character c occurs. -/
def lastIdxOfChar (c : Char) (s : List Char) : Option Nat :=
  (List.range s.length).foldl
    (fun acc i => if s.get? i = some c then some i else acc) none

/-- Match of /\{[\s\S]*\}/: from the first opening brace to the last closing
brace after it. -/
def findBraced (s : List Char) : Option (List Char) :=
  match idxOfSub s [lbraceChar] with
  | none => none
  | some i =>
      let tail := s.drop i
      match lastIdxOfChar rbraceChar tail with
      | none => none
      | some j => if 0 < j then some (tail.take (j + 1)) else none

/-- The jsonText computation shared by both aiSearch versions: a fenced code
block is tried first (its capture trimmed), then the outermost
brace-delimited object, else the raw response text. -/
def extractJsonText (responseText : String) : String :=
  match findFenced responseText.toList with
  | some cap => String.mk (jsTrimL cap)
  | none =>
      match findBraced responseText.toList with
      | some obj => String.mk obj
      | none => responseText

/-! ## server/aiSearch.ts, web-aggregating version

The version that fans out to the catalog, Google Books and the web searcher,
then has Gemini rank the combined pool.  The three provider fetches and the
model call are external: they enter as the already-resolved provider lists
(each adapter fails soft to []) and as the optional response text (none =
transport error); JSON.parse enters as a parseJson oracle. -/

namespace AiSearch

open Schema

/-- The AIMatchResult interface of this version (no groundedness fields). -/
structure AIMatchResult where
  bookId : String
  relevanceScore : Int
  aiDescription : String
  matchReason : Option String
  matchedTopics : Option (List String)
deriving DecidableEq, Repr

/-- The AIResponse interface. -/
structure AIResponse where
  matches' : List AIMatchResult
  interpretation : String
deriving DecidableEq, Repr

/-- getConfidenceTier: fixed thresholds 90 / 70 / 50. -/
def getConfidenceTier (score : Int) : MatchConfidenceTier :=
  if score ≥ 90 then MatchConfidenceTier.strong
  else if score ≥ 70 then MatchConfidenceTier.good
  else if score ≥ 50 then MatchConfidenceTier.potential
  else MatchConfidenceTier.weak

/-- The per-book keyword score of fallbackSearch (this version includes
keyTopics in the searchable text). -/
def fallbackScore (query : String) (book : Book) : Int :=
  let queryLower := toLowerS query
  let queryWords := (splitWsRuns queryLower.toList).map String.mk
  let searchableText :=
    toLowerS (book.title ++ " " ++ book.author.getD "" ++ " " ++
      book.description ++ " " ++ book.category.getD "" ++ " " ++
      String.intercalate " " book.keyTopics)
  queryWords.foldl (fun score word =>
    if word.length < 3 then score
    else if strIncludes searchableText word then
      score + 20 + (if strIncludes (toLowerS book.title) word then 15 else 0) +
        (if (match book.category with
             | some c => strIncludes (toLowerS c) word
             | none => false)
         then 10 else 0)
    else score) (0 : Int)

/-- fallbackSearch of this version: score, drop zero scores, sort descending,
cap at 30; every survivor is marked grounded with a tier from its score. -/
def fallbackSearch (query : String) (books : List Book) : List SearchResult :=
  let scored := (books.map (fun book =>
    { book := book
      relevanceScore := min (fallbackScore query book) 95
      matchReason := some "Matched using keyword search"
      confidenceTier := some (getConfidenceTier (min (fallbackScore query book) 95))
      citationSnippet := none
      citationLocation := none
      matchedTopics := none
      isGrounded := some true : SearchResult })).filter
      (fun r => r.relevanceScore > 0)
  (stableSortByDesc (fun r => r.relevanceScore) scored).take 30

/-- new Map(allBooks.map(b => [b.id, b])).get(bookId): the last book with a
given id wins, as in the Map constructor. -/
def bookMapGet (books : List Book) (bookId : String) : Option Book :=
  books.foldl (fun acc b => if b.id = bookId then some b else acc) none

/-- The result record built for one admitted match: isGrounded records only
provenance (every non-google-books source counts as catalog). -/
def mkResult (book : Book) (m : AIMatchResult) : SearchResult :=
  { book := { book with aiDescription := some m.aiDescription }
    relevanceScore := m.relevanceScore
    matchReason := m.matchReason
    confidenceTier := some (getConfidenceTier m.relevanceScore)
    citationSnippet := none
    citationLocation := none
    matchedTopics := m.matchedTopics
    isGrounded := some (decide (book.source ≠ BookSource.google_books)) }

/-- One step of the reduce over admitted matches: unknown bookIds contribute
nothing. -/
def assembleStep (allBooks : List Book) (acc : List SearchResult)
    (m : AIMatchResult) : List SearchResult :=
  match bookMapGet allBooks m.bookId with
  | none => acc
  | some book => acc ++ [mkResult book m]

/-- The filter–reduce–sort pipeline over the parsed model response. -/
def assembleResults (allBooks : List Book) (resp : AIResponse) : List SearchResult :=
  stableSortByDesc (fun r => r.relevanceScore)
    ((resp.matches'.filter (fun m => m.relevanceScore ≥ 50)).foldl
      (assembleStep allBooks) [])

/-- The try/catch around the model call and parse: any failure of the call
(none text) or of JSON.parse (parseJson returns none) falls back to the
keyword search. -/
def scoreStage (query : String) (allBooks : List Book) (aiText : Option String)
    (parseJson : String → Option AIResponse) : List SearchResult :=
  match aiText with
  | none => fallbackSearch query allBooks
  | some t =>
      match parseJson (extractJsonText t) with
      | none => fallbackSearch query allBooks
      | some resp => assembleResults allBooks resp

/-- searchBooksWithAI of this version: proportional sampling of the three
provider lists, early empty return, then the scoring stage. -/
def searchBooksWithAI (query : String)
    (catalogBooks googleBooksResults webSearchResults : List Book)
    (aiText : Option String) (parseJson : String → Option AIResponse) :
    List SearchResult :=
  let maxCatalogBooks := min catalogBooks.length 15
  let maxGoogleBooks := min googleBooksResults.length 25
  let maxWebBooks := min webSearchResults.length 50
  let sampledCatalog := catalogBooks.take maxCatalogBooks
  let sampledGoogle := googleBooksResults.take maxGoogleBooks
  let sampledWeb := webSearchResults.take maxWebBooks
  let allBooks := sampledWeb ++ sampledGoogle ++ sampledCatalog
  if allBooks.isEmpty then []
  else scoreStage query allBooks aiText parseJson

end AiSearch

/-! ## server/aiSearch.ts, grounded-catalog version

The version with the explicit groundedness contract: the model reports an
isGrounded flag per match and post-processing drops ungrounded or low-scored
matches. -/

namespace AiSearchGrounded

open Schema

/-- The AIMatchResult interface of this version, with groundedness fields. -/
structure AIMatchResult where
  bookId : String
  relevanceScore : Int
  aiDescription : String
  matchReason : Option String
  citationSnippet : Option String
  citationLocation : Option String
  matchedTopics : Option (List String)
  isGrounded : Bool
deriving DecidableEq, Repr

/-- The AIResponse interface. -/
structure AIResponse where
  matches' : List AIMatchResult
  interpretation : String
deriving DecidableEq, Repr

/-- getConfidenceTier: fixed thresholds 90 / 70 / 50 (verbatim copy in this
version of the file). -/
def getConfidenceTier (score : Int) : MatchConfidenceTier :=
  if score ≥ 90 then MatchConfidenceTier.strong
  else if score ≥ 70 then MatchConfidenceTier.good
  else if score ≥ 50 then MatchConfidenceTier.potential
  else MatchConfidenceTier.weak

/-- The admission filter over model matches: reject when not grounded, then
reject when the score is below 50. -/
def admitMatch (m : AIMatchResult) : Bool :=
  if !m.isGrounded then false
  else if m.relevanceScore < 50 then false
  else true

/-- The result record built for one admitted match. -/
def mkResult (book : Book) (m : AIMatchResult) : SearchResult :=
  { book := { book with aiDescription := some m.aiDescription }
    relevanceScore := m.relevanceScore
    matchReason := m.matchReason
    confidenceTier := some (getConfidenceTier m.relevanceScore)
    citationSnippet := m.citationSnippet
    citationLocation := m.citationLocation
    matchedTopics := m.matchedTopics
    isGrounded := some m.isGrounded }

/-- filter–map–filter(null)–sort over the parsed model response; matched
bookIds absent from the filtered catalog map to null and are dropped. -/
def assembleResults (filteredCatalog : List Book) (resp : AIResponse) :
    List SearchResult :=
  stableSortByDesc (fun r => r.relevanceScore)
    ((resp.matches'.filter admitMatch).filterMap (fun m =>
      (filteredCatalog.find? (fun b => b.id = m.bookId)).map
        (fun book => mkResult book m)))

/-- The per-book keyword score of this version's fallbackSearch (searchable
text without keyTopics). -/
def fallbackScore (query : String) (book : Book) : Int :=
  let queryLower := toLowerS query
  let queryWords := (splitWsRuns queryLower.toList).map String.mk
  let searchableText :=
    toLowerS (book.title ++ " " ++ book.author.getD "" ++ " " ++
      book.description ++ " " ++ book.category.getD "")
  queryWords.foldl (fun score word =>
    if word.length < 3 then score
    else if strIncludes searchableText word then
      score + 20 + (if strIncludes (toLowerS book.title) word then 15 else 0) +
        (if (match book.category with
             | some c => strIncludes (toLowerS c) word
             | none => false)
         then 10 else 0)
    else score) (0 : Int)

/-- fallbackSearch of this version: score, drop zero scores, sort descending;
no cap, no tier, no groundedness annotation. -/
def fallbackSearch (query : String) (catalog : List Book) : List SearchResult :=
  let scored := (catalog.map (fun book =>
    { book := book
      relevanceScore := min (fallbackScore query book) 95
      matchReason := some "Matched using keyword search (AI temporarily unavailable)"
      confidenceTier := none
      citationSnippet := none
      citationLocation := none
      matchedTopics := none
      isGrounded := none : SearchResult })).filter
      (fun r => r.relevanceScore > 0)
  stableSortByDesc (fun r => r.relevanceScore) scored

/-- sources?.length ? bookCatalog.filter(...) : bookCatalog. -/
def filterCatalog (bookCatalog : List Book) (sources : Option (List BookSource)) :
    List Book :=
  match sources with
  | some ss =>
      if ss.length > 0 then bookCatalog.filter (fun b => ss.contains b.source)
      else bookCatalog
  | none => bookCatalog

/-- searchBooksWithAI of this version: catalog filtered by the requested
sources, then the model call with fallback on any failure.  The static
catalog, the response text and JSON.parse are passed in. -/
def searchBooksWithAI (bookCatalog : List Book) (query : String)
    (sources : Option (List BookSource)) (aiText : Option String)
    (parseJson : String → Option AIResponse) : List SearchResult :=
  let filteredCatalog := filterCatalog bookCatalog sources
  match aiText with
  | none => fallbackSearch query filteredCatalog
  | some t =>
      match parseJson (extractJsonText t) with
      | none => fallbackSearch query filteredCatalog
      | some resp => assembleResults filteredCatalog resp

end AiSearchGrounded

/-! ## Concrete data used by counterexamples and witnesses -/

namespace Demo

open Schema

/-- A catalog book whose description mentions meditation but whose title and
category do not. -/
def medBook : Book :=
  { blankBook with
    id := "c1", title := "Tantra Path",
    description := "about meditation practice",
    source := BookSource.exotic_india }

/-- A Google-Books-sourced candidate. -/
def googleBook : Book :=
  { blankBook with
    id := "g1", title := "Meditation Now",
    description := "found on the web",
    source := BookSource.google_books }

/-- A catalog candidate of the duplicated title/author pair. -/
def dupCatalogBook : Book :=
  { blankBook with
    id := "c9", title := "Gita", author := some "Vyasa",
    description := "catalog copy", source := BookSource.exotic_india }

/-- A Google-Books candidate with the same title/author as the catalog one. -/
def dupGoogleBook : Book :=
  { blankBook with
    id := "g9", title := "Gita", author := some "Vyasa",
    description := "google copy", source := BookSource.google_books }

/-- A web-version model match record with the given id and score and no
optional fields. -/
def mkWebMatch (bid : String) (score : Int) : AiSearch.AIMatchResult :=
  { bookId := bid, relevanceScore := score, aiDescription := "d", matchReason := none, matchedTopics := none }

/-- A parsed model response matching the Google-Books candidate with a high
score. -/
def c2resp : AiSearch.AIResponse :=
  { matches' := [mkWebMatch "g1" 80], interpretation := "i" }

/-- JSON.parse oracle returning c2resp exactly on the raw text X. -/
def c2parse : String → Option AiSearch.AIResponse :=
  fun s => if s = "X" then some c2resp else none

/-- A parsed model response matching both copies of the duplicated book. -/
def c4resp : AiSearch.AIResponse :=
  { matches' := [mkWebMatch "c9" 90, mkWebMatch "g9" 80], interpretation := "i" }

/-- JSON.parse oracle returning c4resp exactly on the raw text Y. -/
def c4parse : String → Option AiSearch.AIResponse :=
  fun s => if s = "Y" then some c4resp else none

/-- An Open Library doc that passes the adapter filter. -/
def olDoc : WebSearch.OLDoc :=
  { title := some "Meditation", author_name := some ["Osho"], publisher := none,
    isbn := some ["123"], key := some "/works/OL1W",
    subject := some ["Meditation"], first_publish_year := some 1980,
    first_sentence := none, language := some ["eng"] }

/-- A fetch oracle under which the author-structured search is empty while
the general free-text search finds a book. -/
def c9oracle : WebSearch.OLRequest → Option (List WebSearch.OLDoc) :=
  fun req =>
    match req with
    | WebSearch.OLRequest.general _ _ => some [olDoc]
    | WebSearch.OLRequest.structured _ _ _ => some []

/-- A response naming one pooled book and one invented bookId. -/
def c10respKnown : AiSearch.AIResponse :=
  { matches' := [mkWebMatch "c9" 90, mkWebMatch "invented" 95], interpretation := "i" }

/-- A response naming only an invented bookId. -/
def c10respUnknown : AiSearch.AIResponse :=
  { matches' := [mkWebMatch "invented" 95], interpretation := "i" }

/-- A grounded-version model match record marked grounded, with the given id
and score. -/
def mkGroundedMatch (bid : String) (score : Int) : AiSearchGrounded.AIMatchResult :=
  { bookId := bid, relevanceScore := score, aiDescription := "d", matchReason := none, citationSnippet := some "s", citationLocation := some "l", matchedTopics := none, isGrounded := true }

/-- A grounded-version response naming one catalog book. -/
def c10groundedKnown : AiSearchGrounded.AIResponse :=
  { matches' := [mkGroundedMatch "c1" 90], interpretation := "i" }

/-- A grounded-version response naming only an invented bookId. -/
def c10groundedUnknown : AiSearchGrounded.AIResponse :=
  { matches' := [mkGroundedMatch "invented" 95], interpretation := "i" }

end Demo

/-! # Theorems -/

/-! ## Stable sort lemmas -/

theorem mem_insertByDesc (score : α → Int) (x : α) (l : List α) (a : α) :
    a ∈ insertByDesc score x l ↔ a = x ∨ a ∈ l := by
  induction l with
  | nil => simp [insertByDesc]
  | cons y ys ih =>
      simp only [insertByDesc]
      by_cases h : score y ≤ score x
      · simp [h]
      · simp only [if_neg h, List.mem_cons, ih]
        tauto

theorem perm_insertByDesc (score : α → Int) (x : α) (l : List α) :
    List.Perm (insertByDesc score x l) (x :: l) := by
  induction l with
  | nil => simp [insertByDesc]
  | cons y ys ih =>
      simp only [insertByDesc]
      by_cases h : score y ≤ score x
      · simp [h]
      · simp only [if_neg h]
        exact ((ih.cons y).trans (List.Perm.swap x y ys))

theorem perm_stableSortByDesc (score : α → Int) (l : List α) :
    List.Perm (stableSortByDesc score l) l := by
  induction l with
  | nil => simp [stableSortByDesc]
  | cons y ys ih =>
      simpa [stableSortByDesc] using
        (perm_insertByDesc score y (stableSortByDesc score ys)).trans (ih.cons y)

theorem mem_stableSortByDesc (score : α → Int) (l : List α) (a : α) :
    a ∈ stableSortByDesc score l ↔ a ∈ l :=
  (perm_stableSortByDesc score l).mem_iff

theorem pairwise_stableSortByDesc {R : α → α → Prop}
    (hR : ∀ {x y : α}, R x y → R y x) (score : α → Int) (l : List α)
    (h : l.Pairwise R) : (stableSortByDesc score l).Pairwise R :=
  ((perm_stableSortByDesc score l).pairwise_iff hR).mpr h

/-! ## Confidence-tier characterization -/

theorem tier_strong_iff (s : Int) :
    AiSearch.getConfidenceTier s = Schema.MatchConfidenceTier.strong ↔ 90 ≤ s := by
  unfold AiSearch.getConfidenceTier
  split_ifs with h1 h2 h3 <;> simp <;> omega

theorem tier_good_iff (s : Int) :
    AiSearch.getConfidenceTier s = Schema.MatchConfidenceTier.good ↔ 70 ≤ s ∧ s < 90 := by
  unfold AiSearch.getConfidenceTier
  split_ifs with h1 h2 h3 <;> simp <;> omega

theorem tier_potential_iff (s : Int) :
    AiSearch.getConfidenceTier s = Schema.MatchConfidenceTier.potential ↔ 50 ≤ s ∧ s < 70 := by
  unfold AiSearch.getConfidenceTier
  split_ifs with h1 h2 h3 <;> simp <;> omega

theorem tier_weak_iff (s : Int) :
    AiSearch.getConfidenceTier s = Schema.MatchConfidenceTier.weak ↔ s < 50 := by
  unfold AiSearch.getConfidenceTier
  split_ifs with h1 h2 h3 <;> simp <;> omega

theorem grounded_tier_eq (s : Int) :
    AiSearchGrounded.getConfidenceTier s = AiSearch.getConfidenceTier s := rfl

/-! ## Admission and assembly shape lemmas -/

theorem admitMatch_iff (m : AiSearchGrounded.AIMatchResult) :
    AiSearchGrounded.admitMatch m = true ↔ m.isGrounded = true ∧ 50 ≤ m.relevanceScore := by
  unfold AiSearchGrounded.admitMatch
  cases hg : m.isGrounded <;> split_ifs <;> simp_all

theorem bookMapGet_aux (i : String) (pool : List Schema.Book)
    (acc : Option Schema.Book) (b : Schema.Book)
    (h : pool.foldl (fun acc b => if b.id = i then some b else acc) acc = some b) :
    b ∈ pool ∨ acc = some b := by
  induction pool generalizing acc with
  | nil => simp_all
  | cons p ps ih =>
      simp only [List.foldl_cons] at h
      rcases ih _ h with hmem | hacc
      · exact Or.inl (List.mem_cons_of_mem _ hmem)
      · by_cases hp : p.id = i
        · simp only [hp, if_pos] at hacc
          exact Or.inl (by simp [Option.some.injEq] at hacc; simp [hacc])
        · simp only [if_neg hp] at hacc
          exact Or.inr hacc

theorem bookMapGet_mem (pool : List Schema.Book) (i : String) (b : Schema.Book)
    (h : AiSearch.bookMapGet pool i = some b) : b ∈ pool := by
  rcases bookMapGet_aux i pool none b h with hm | hacc
  · exact hm
  · simp at hacc

theorem bookMapGet_eq_none (pool : List Schema.Book) (i : String)
    (h : ∀ b ∈ pool, ¬ b.id = i) : AiSearch.bookMapGet pool i = none := by
  unfold AiSearch.bookMapGet
  induction pool with
  | nil => rfl
  | cons p ps ih =>
      simp only [List.foldl_cons, if_neg (h p (List.mem_cons_self p ps))]
      exact ih (fun b hb => h b (List.mem_cons_of_mem _ hb))

theorem foldl_assembleStep (pool : List Schema.Book)
    (ms : List AiSearch.AIMatchResult) (acc : List Schema.SearchResult) :
    ms.foldl (AiSearch.assembleStep pool) acc =
      acc ++ ms.filterMap (fun m =>
        (AiSearch.bookMapGet pool m.bookId).map (fun b => AiSearch.mkResult b m)) := by
  induction ms generalizing acc with
  | nil => simp
  | cons m ms ih =>
      simp only [List.foldl_cons, List.filterMap_cons]
      cases h : AiSearch.bookMapGet pool m.bookId with
      | none => simp [AiSearch.assembleStep, h, ih]
      | some b => simp [AiSearch.assembleStep, h, ih]

theorem mem_web_assemble (pool : List Schema.Book) (resp : AiSearch.AIResponse)
    (r : Schema.SearchResult) (h : r ∈ AiSearch.assembleResults pool resp) :
    ∃ m ∈ resp.matches', 50 ≤ m.relevanceScore ∧
      ∃ b ∈ pool, r = AiSearch.mkResult b m := by
  unfold AiSearch.assembleResults at h
  rw [mem_stableSortByDesc, foldl_assembleStep, List.nil_append,
    List.mem_filterMap] at h
  rcases h with ⟨m, hm, heq⟩
  rcases List.mem_filter.mp hm with ⟨hmem, hscore⟩
  cases hb : AiSearch.bookMapGet pool m.bookId with
  | none => rw [hb] at heq; simp at heq
  | some b =>
      rw [hb] at heq
      have heq2 : AiSearch.mkResult b m = r := by simpa using heq
      exact ⟨m, hmem, by simpa using hscore, b, bookMapGet_mem pool _ b hb, heq2.symm⟩

theorem mem_grounded_assemble (cat : List Schema.Book)
    (resp : AiSearchGrounded.AIResponse) (r : Schema.SearchResult)
    (h : r ∈ AiSearchGrounded.assembleResults cat resp) :
    ∃ m ∈ resp.matches', AiSearchGrounded.admitMatch m = true ∧
      ∃ b ∈ cat, r = AiSearchGrounded.mkResult b m := by
  unfold AiSearchGrounded.assembleResults at h
  rw [mem_stableSortByDesc, List.mem_filterMap] at h
  rcases h with ⟨m, hm, heq⟩
  rcases List.mem_filter.mp hm with ⟨hmem, hadm⟩
  cases hb : cat.find? (fun b => b.id = m.bookId) with
  | none => rw [hb] at heq; simp at heq
  | some b =>
      rw [hb] at heq
      have heq2 : AiSearchGrounded.mkResult b m = r := by simpa using heq
      exact ⟨m, hmem, hadm, b, List.mem_of_find?_eq_some hb, heq2.symm⟩

theorem web_fallback_shape (q : String) (books : List Schema.Book)
    (r : Schema.SearchResult) (h : r ∈ AiSearch.fallbackSearch q books) :
    0 < r.relevanceScore ∧
      r.confidenceTier = some (AiSearch.getConfidenceTier r.relevanceScore) ∧
      r.isGrounded = some true ∧ r.book ∈ books := by
  unfold AiSearch.fallbackSearch at h
  have h1 := List.mem_of_mem_take h
  rw [mem_stableSortByDesc] at h1
  rcases List.mem_filter.mp h1 with ⟨hmem, hpos⟩
  rcases List.mem_map.mp hmem with ⟨b, hb, heq⟩
  subst heq
  refine ⟨by simpa using hpos, rfl, rfl, hb⟩

theorem grounded_fallback_shape (q : String) (cat : List Schema.Book)
    (r : Schema.SearchResult) (h : r ∈ AiSearchGrounded.fallbackSearch q cat) :
    0 < r.relevanceScore ∧ r.book ∈ cat := by
  unfold AiSearchGrounded.fallbackSearch at h
  rw [mem_stableSortByDesc] at h
  rcases List.mem_filter.mp h with ⟨hmem, hpos⟩
  rcases List.mem_map.mp hmem with ⟨b, hb, heq⟩
  subst heq
  exact ⟨by simpa using hpos, hb⟩

/-! ## Deduplication lemmas -/

theorem dedupGo_cons_skip (seen : List String) (b : Schema.Book)
    (rest : List Schema.Book) (hc : seen.contains (WebSearch.dedupKey b) = true) :
    WebSearch.deduplicateBooksGo seen (b :: rest) =
      WebSearch.deduplicateBooksGo seen rest := by
  simp only [WebSearch.deduplicateBooksGo]
  rw [if_pos hc]

theorem dedupGo_cons_keep (seen : List String) (b : Schema.Book)
    (rest : List Schema.Book) (hc : seen.contains (WebSearch.dedupKey b) = false) :
    WebSearch.deduplicateBooksGo seen (b :: rest) =
      b :: WebSearch.deduplicateBooksGo (WebSearch.dedupKey b :: seen) rest := by
  simp only [WebSearch.deduplicateBooksGo]
  rw [if_neg (by rw [hc]; simp)]

theorem dedupGo_sublist (l : List Schema.Book) (seen : List String) :
    List.Sublist (WebSearch.deduplicateBooksGo seen l) l := by
  induction l generalizing seen with
  | nil => simp [WebSearch.deduplicateBooksGo]
  | cons b rest ih =>
      cases hc : seen.contains (WebSearch.dedupKey b)
      · rw [dedupGo_cons_keep seen b rest hc]
        exact (ih (WebSearch.dedupKey b :: seen)).cons₂ b
      · rw [dedupGo_cons_skip seen b rest hc]
        exact (ih seen).cons b

theorem dedupGo_keys (l : List Schema.Book) : ∀ (seen : List String),
    (∀ x ∈ WebSearch.deduplicateBooksGo seen l,
        seen.contains (WebSearch.dedupKey x) = false) ∧
      (WebSearch.deduplicateBooksGo seen l).Pairwise
        (fun a b => WebSearch.dedupKey a ≠ WebSearch.dedupKey b) := by
  induction l with
  | nil => intro seen; simp [WebSearch.deduplicateBooksGo]
  | cons b rest ih =>
      intro seen
      cases hc : seen.contains (WebSearch.dedupKey b)
      · rw [dedupGo_cons_keep seen b rest hc]
        constructor
        · intro x hx
          rcases List.mem_cons.mp hx with hx | hx
          · subst hx; exact hc
          · have hk := (ih (WebSearch.dedupKey b :: seen)).1 x hx
            simp only [List.contains_cons, Bool.or_eq_false_iff] at hk
            exact hk.2
        · refine List.Pairwise.cons ?_ (ih (WebSearch.dedupKey b :: seen)).2
          intro x hx
          have hk := (ih (WebSearch.dedupKey b :: seen)).1 x hx
          simp only [List.contains_cons, Bool.or_eq_false_iff,
            beq_eq_false_iff_ne] at hk
          exact fun heq => hk.1 (heq ▸ rfl)
      · rw [dedupGo_cons_skip seen b rest hc]
        exact ih seen

theorem dedup_pairwise (books : List Schema.Book) :
    (WebSearch.deduplicateBooks books).Pairwise
      (fun a b => WebSearch.dedupKey a ≠ WebSearch.dedupKey b) :=
  (dedupGo_keys books []).2

theorem dedup_sublist (books : List Schema.Book) :
    List.Sublist (WebSearch.deduplicateBooks books) books :=
  dedupGo_sublist books []

theorem dedupGo_eq_spec (l : List Schema.Book) : ∀ (seen : List String),
    WebSearch.deduplicateBooksGo seen l =
      WebSearch.specKeepFirstByKey
        (l.filter (fun b => !seen.contains (WebSearch.dedupKey b))) := by
  induction l with
  | nil => intro seen; simp [WebSearch.deduplicateBooksGo, WebSearch.specKeepFirstByKey]
  | cons b rest ih =>
      intro seen
      cases hc : seen.contains (WebSearch.dedupKey b)
      · have hfil : (b :: rest).filter (fun x => !seen.contains (WebSearch.dedupKey x)) =
            b :: rest.filter (fun x => !seen.contains (WebSearch.dedupKey x)) := by
          rw [List.filter_cons, if_pos (by rw [hc]; rfl)]
        rw [dedupGo_cons_keep seen b rest hc, hfil, WebSearch.specKeepFirstByKey,
          ih (WebSearch.dedupKey b :: seen), List.filter_filter]
        apply congrArg
        apply congrArg WebSearch.specKeepFirstByKey
        apply List.filter_congr
        intro x _
        cases hxb : WebSearch.dedupKey x == WebSearch.dedupKey b <;>
          cases hxs : seen.contains (WebSearch.dedupKey x) <;>
            simp_all [List.contains_cons]
      · have hfil : (b :: rest).filter (fun x => !seen.contains (WebSearch.dedupKey x)) =
            rest.filter (fun x => !seen.contains (WebSearch.dedupKey x)) := by
          rw [List.filter_cons, if_neg (by rw [hc]; simp)]
        rw [dedupGo_cons_skip seen b rest hc, hfil]
        exact ih seen

theorem dedup_eq_spec (books : List Schema.Book) :
    WebSearch.deduplicateBooks books = WebSearch.specKeepFirstByKey books := by
  have h := dedupGo_eq_spec books []
  simpa [WebSearch.deduplicateBooks] using h

/-! # Claim theorems -/

/-- C3: confidenceTier is a deterministic pure function of relevanceScore with
the fixed thresholds (>=90 strong, 70..89 good, 50..69 potential, <50 weak);
both aiSearch versions compute the same function, and in every assembled
result list the stored tier equals that function of the stored score. -/
theorem c3_confidence_tier (s : Int) (pool cat books : List Schema.Book)
    (wresp : AiSearch.AIResponse) (gresp : AiSearchGrounded.AIResponse)
    (q : String) :
    (AiSearch.getConfidenceTier s = Schema.MatchConfidenceTier.strong ↔ 90 ≤ s)
    ∧ (AiSearch.getConfidenceTier s = Schema.MatchConfidenceTier.good ↔ 70 ≤ s ∧ s < 90)
    ∧ (AiSearch.getConfidenceTier s = Schema.MatchConfidenceTier.potential ↔ 50 ≤ s ∧ s < 70)
    ∧ (AiSearch.getConfidenceTier s = Schema.MatchConfidenceTier.weak ↔ s < 50)
    ∧ AiSearchGrounded.getConfidenceTier s = AiSearch.getConfidenceTier s
    ∧ (AiSearch.assembleResults pool wresp).map (fun r => r.confidenceTier) =
        (AiSearch.assembleResults pool wresp).map
          (fun r => some (AiSearch.getConfidenceTier r.relevanceScore))
    ∧ (AiSearch.fallbackSearch q books).map (fun r => r.confidenceTier) =
        (AiSearch.fallbackSearch q books).map
          (fun r => some (AiSearch.getConfidenceTier r.relevanceScore))
    ∧ (AiSearchGrounded.assembleResults cat gresp).map (fun r => r.confidenceTier) =
        (AiSearchGrounded.assembleResults cat gresp).map
          (fun r => some (AiSearchGrounded.getConfidenceTier r.relevanceScore)) := by
  refine ⟨tier_strong_iff s, tier_good_iff s, tier_potential_iff s,
    tier_weak_iff s, grounded_tier_eq s, ?_, ?_, ?_⟩
  · apply List.map_congr_left
    intro r hr
    rcases mem_web_assemble pool wresp r hr with ⟨m, _, _, b, _, rfl⟩
    rfl
  · apply List.map_congr_left
    intro r hr
    exact (web_fallback_shape q books r hr).2.1
  · apply List.map_congr_left
    intro r hr
    rcases mem_grounded_assemble cat gresp r hr with ⟨m, _, _, b, _, rfl⟩
    rfl

/-- C1 counterexample: on the deterministic keyword fallback path a result
with relevanceScore 20 is surfaced in the response, so results below 50 are
not removed on every scoring path. -/
theorem c1_counterexample :
    ((Schema.buildSearchResponse "meditation"
        (AiSearch.searchBooksWithAI "meditation" [Demo.medBook] [] [] none
          (fun _ => none)) 0).results).map (fun r => r.relevanceScore) = [20]
    ∧ ((20 : Int) < 50) := by
  constructor
  · decide
  · decide

/-- C1 (amended): on the LLM-scored path (both aiSearch versions) every
surfaced result has relevanceScore >= 50; on the keyword fallback path only
zero-scoring candidates are dropped, so any positive score (possibly below
50) is surfaced. -/
theorem c1_score_floor (pool cat books catalog : List Schema.Book)
    (wresp : AiSearch.AIResponse) (gresp : AiSearchGrounded.AIResponse)
    (q q2 : String) :
    ((AiSearch.assembleResults pool wresp).all
        (fun r => decide (50 ≤ r.relevanceScore)) = true)
    ∧ ((AiSearchGrounded.assembleResults cat gresp).all
        (fun r => decide (50 ≤ r.relevanceScore)) = true)
    ∧ ((AiSearch.fallbackSearch q books).all
        (fun r => decide (0 < r.relevanceScore)) = true)
    ∧ ((AiSearchGrounded.fallbackSearch q2 catalog).all
        (fun r => decide (0 < r.relevanceScore)) = true) := by
  refine ⟨?_, ?_, ?_, ?_⟩
  · rw [List.all_eq_true]
    intro r hr
    rcases mem_web_assemble pool wresp r hr with ⟨m, _, hs, b, _, rfl⟩
    simp only [decide_eq_true_eq]
    exact hs
  · rw [List.all_eq_true]
    intro r hr
    rcases mem_grounded_assemble cat gresp r hr with ⟨m, _, hadm, b, _, rfl⟩
    simp only [decide_eq_true_eq]
    exact ((admitMatch_iff m).mp hadm).2
  · rw [List.all_eq_true]
    intro r hr
    simp only [decide_eq_true_eq]
    exact (web_fallback_shape q books r hr).1
  · rw [List.all_eq_true]
    intro r hr
    simp only [decide_eq_true_eq]
    exact (grounded_fallback_shape q2 catalog r hr).1

/-- C2 counterexample: the web-aggregating LLM path surfaces a result with
isGrounded = false (a google-books-sourced candidate), so ungrounded results
are not all dropped before assembly on that grounded-scoring path. -/
theorem c2_counterexample :
    (AiSearch.searchBooksWithAI "q" [] [Demo.googleBook] [] (some "X")
        Demo.c2parse).map (fun r => r.isGrounded) = [some false] := by
  decide

/-- C2 (amended): in the grounded-catalog aiSearch version every assembled
result has isGrounded = true (ungrounded matches are dropped); in the
web-aggregating version the evaluator flag is ignored and isGrounded records
provenance only: false exactly for google-books-sourced candidates. -/
theorem c2_groundedness_gate (cat pool : List Schema.Book)
    (gresp : AiSearchGrounded.AIResponse) (wresp : AiSearch.AIResponse) :
    ((AiSearchGrounded.assembleResults cat gresp).all
        (fun r => decide (r.isGrounded = some true)) = true)
    ∧ ((AiSearch.assembleResults pool wresp).all
        (fun r => decide (r.isGrounded =
          some (decide (r.book.source ≠ Schema.BookSource.google_books)))) = true) := by
  constructor
  · rw [List.all_eq_true]
    intro r hr
    rcases mem_grounded_assemble cat gresp r hr with ⟨m, _, hadm, b, _, rfl⟩
    have hg := ((admitMatch_iff m).mp hadm).1
    simp only [decide_eq_true_eq]
    show some m.isGrounded = some true
    rw [hg]
  · rw [List.all_eq_true]
    intro r hr
    rcases mem_web_assemble pool wresp r hr with ⟨m, _, _, b, _, rfl⟩
    simp only [decide_eq_true_eq]
    rfl

/-- C4 counterexample: a search response assembled from catalog and
google-books candidates contains two results sharing the case-insensitive
(title, author) key, because deduplication runs only inside the web-search
adapter, not across the aggregated pool. -/
theorem c4_counterexample :
    ((AiSearch.searchBooksWithAI "gita" [Demo.dupCatalogBook] [Demo.dupGoogleBook]
        [] (some "Y") Demo.c4parse).map (fun r => WebSearch.dedupKey r.book) =
      ["gita-vyasa", "gita-vyasa"])
    ∧ ¬ ((AiSearch.searchBooksWithAI "gita" [Demo.dupCatalogBook] [Demo.dupGoogleBook]
        [] (some "Y") Demo.c4parse).Pairwise
          (fun a b => WebSearch.dedupKey a.book ≠ WebSearch.dedupKey b.book)) := by
  constructor
  · decide
  · decide

/-- C4 (amended): within the web-search adapter, deduplicateBooks keeps the
first-seen candidate per case-insensitive (title, author) key and silently
discards later ones unmerged (it equals the spec-level keep-first function,
yields pairwise-distinct keys, and is a sublist of its input), and every
searchWeb output has pairwise-distinct keys; the invariant is not applied to
the whole aggregated response. -/
theorem c4_dedup_within_web_adapter (books ol gs : List Schema.Book)
    (query : String) (n : Nat) :
    WebSearch.deduplicateBooks books = WebSearch.specKeepFirstByKey books
    ∧ (WebSearch.deduplicateBooks books).Pairwise
        (fun a b => WebSearch.dedupKey a ≠ WebSearch.dedupKey b)
    ∧ List.Sublist (WebSearch.deduplicateBooks books) books
    ∧ (WebSearch.searchWeb query ol gs n).Pairwise
        (fun a b => WebSearch.dedupKey a ≠ WebSearch.dedupKey b) := by
  refine ⟨dedup_eq_spec books, dedup_pairwise books, dedup_sublist books, ?_⟩
  have hded := dedup_pairwise (ol ++ gs)
  unfold WebSearch.searchWeb
  apply List.Pairwise.sublist (List.take_sublist _ _)
  unfold WebSearch.rankByAuthorAndTopics
  split_ifs with h
  · exact hded
  · exact pairwise_stableSortByDesc (fun hxy => hxy.symm) _ _ hded

/-- C5: a model response whose extracted text fails JSON.parse makes both
scorer versions fall back to the deterministic keyword search, the response
is still assembled with totalResults equal to the result count, and the
extraction tries a fenced code block first and the outermost brace-delimited
object second. -/
theorem c5_malformed_output_falls_back (bookCatalog pool : List Schema.Book)
    (query : String) (sources : Option (List Schema.BookSource))
    (gparse : String → Option AiSearchGrounded.AIResponse)
    (wparse : String → Option AiSearch.AIResponse)
    (t s1 s2 : String) (cap obj : List Char) (st : Rat)
    (hg : gparse (extractJsonText t) = none)
    (hw : wparse (extractJsonText t) = none)
    (hf : findFenced s1.toList = some cap)
    (hn : findFenced s2.toList = none)
    (hb : findBraced s2.toList = some obj) :
    AiSearchGrounded.searchBooksWithAI bookCatalog query sources (some t) gparse =
        AiSearchGrounded.fallbackSearch query
          (AiSearchGrounded.filterCatalog bookCatalog sources)
    ∧ AiSearch.scoreStage query pool (some t) wparse =
        AiSearch.fallbackSearch query pool
    ∧ (Schema.buildSearchResponse query
        (AiSearchGrounded.searchBooksWithAI bookCatalog query sources (some t)
          gparse) st).totalResults =
        (Schema.buildSearchResponse query
          (AiSearchGrounded.searchBooksWithAI bookCatalog query sources (some t)
            gparse) st).results.length
    ∧ extractJsonText s1 = String.mk (jsTrimL cap)
    ∧ extractJsonText s2 = String.mk obj := by
  refine ⟨?_, ?_, rfl, ?_, ?_⟩
  · simp [AiSearchGrounded.searchBooksWithAI, hg]
  · simp [AiSearch.scoreStage, hw]
  · unfold extractJsonText
    rw [hf]
  · unfold extractJsonText
    rw [hn, hb]

/-- C5 witness: a concrete prose response with no parseable JSON falls back,
and concrete fenced and braced inputs are extracted in the specified order. -/
theorem c5_malformed_output_falls_back_witness :
    AiSearchGrounded.searchBooksWithAI [Demo.medBook] "meditation" none
        (some "the model failed") (fun _ => none) =
      AiSearchGrounded.fallbackSearch "meditation"
        (AiSearchGrounded.filterCatalog [Demo.medBook] none)
    ∧ AiSearch.scoreStage "meditation" [] (some "the model failed")
        (fun _ => none) = AiSearch.fallbackSearch "meditation" []
    ∧ (Schema.buildSearchResponse "meditation"
        (AiSearchGrounded.searchBooksWithAI [Demo.medBook] "meditation" none
          (some "the model failed") (fun _ => none)) 0).totalResults =
        (Schema.buildSearchResponse "meditation"
          (AiSearchGrounded.searchBooksWithAI [Demo.medBook] "meditation" none
            (some "the model failed") (fun _ => none)) 0).results.length
    ∧ extractJsonText "```abc```" = String.mk (jsTrimL "abc".toList)
    ∧ extractJsonText "xx \x7b yy \x7d zz" = String.mk "\x7b yy \x7d".toList :=
  c5_malformed_output_falls_back [Demo.medBook] [] "meditation" none
    (fun _ => none) (fun _ => none) "the model failed" "```abc```"
    "xx \x7b yy \x7d zz" "abc".toList "\x7b yy \x7d".toList 0
    rfl rfl (by decide) (by decide) (by decide)

/-- C6: when every provider contributes zero candidates the search returns an
empty result list and the route-level response carries totalResults 0, with
no error raised (the function is total). -/
theorem c6_all_providers_fail (query : String) (st : Rat)
    (aiText : Option String) (parseJson : String → Option AiSearch.AIResponse) :
    (Schema.buildSearchResponse query
        (AiSearch.searchBooksWithAI query [] [] [] aiText parseJson) st).results = []
    ∧ (Schema.buildSearchResponse query
        (AiSearch.searchBooksWithAI query [] [] [] aiText parseJson) st).totalResults
        = 0 := by
  have h : AiSearch.searchBooksWithAI query [] [] [] aiText parseJson = [] := by
    simp [AiSearch.searchBooksWithAI]
  constructor <;> simp [Schema.buildSearchResponse, h]

/-- C7: whenever the cleaned query splits on separator punctuation into at
least two non-empty trimmed segments, the interpreter takes the first segment
as author and joins the rest as title; in particular the structured query
Osho, meditation techniques parses to author Osho and title meditation
techniques. -/
theorem c7_structured_author_title (query p0 p1 : String) (ps : List String)
    (h : WebSearch.partsOf query = p0 :: p1 :: ps) :
    (WebSearch.parseQueryAdvanced query).author = some p0
    ∧ (WebSearch.parseQueryAdvanced query).title =
        some (String.intercalate " " (p1 :: ps))
    ∧ WebSearch.parseQueryAdvanced "Osho, meditation techniques" =
        { author := some "Osho", title := some "meditation techniques",
          topics := ["meditation"] } := by
  refine ⟨?_, ?_, by decide⟩
  · simp [WebSearch.parseQueryAdvanced, h]
  · simp [WebSearch.parseQueryAdvanced, h]

/-- C7 witness: the hypothesis holds concretely for the scenario query. -/
theorem c7_structured_author_title_witness :
    (WebSearch.parseQueryAdvanced "Osho, meditation techniques").author =
        some "Osho"
    ∧ (WebSearch.parseQueryAdvanced "Osho, meditation techniques").title =
        some (String.intercalate " " ["meditation techniques"])
    ∧ WebSearch.parseQueryAdvanced "Osho, meditation techniques" =
        { author := some "Osho", title := some "meditation techniques",
          topics := ["meditation"] } :=
  c7_structured_author_title "Osho, meditation techniques" "Osho"
    "meditation techniques" [] (by decide)

/-- C8 counterexample: for osho meditation techniques the known-author
heuristic consumes the first two words, not only the matched author name, so
the parse is author osho meditation and title techniques rather than author
osho and title meditation techniques. -/
theorem c8_counterexample :
    (WebSearch.parseQueryAdvanced "osho meditation techniques").author =
        some "osho meditation"
    ∧ (WebSearch.parseQueryAdvanced "osho meditation techniques").title =
        some "techniques"
    ∧ (WebSearch.parseQueryAdvanced "osho meditation techniques").author ≠
        some "osho"
    ∧ (WebSearch.parseQueryAdvanced "osho meditation techniques").title ≠
        some "meditation techniques" := by
  refine ⟨by decide, by decide, by decide, by decide⟩

/-- C8 (amended): when the cleaned query has no separator split, no usable
by-pattern, at least three words, and its lowercased text starts with a
known author name, the interpreter takes the first two words as author and
the remaining words as title. -/
theorem c8_known_author_two_words (query : String)
    (h1 : (WebSearch.partsOf query).length < 2)
    (h2 : (WebSearch.wordsOf query).all
        (fun w => decide (toLowerS w ≠ "by")) = true)
    (h3 : 3 ≤ (WebSearch.wordsOf query).length)
    (h4 : WebSearch.knownAuthors.any
        (fun a => strStarts (toLowerS (WebSearch.cleanedOf query)) a) = true) :
    (WebSearch.parseQueryAdvanced query).author =
        some (String.intercalate " " ((WebSearch.wordsOf query).take 2))
    ∧ (WebSearch.parseQueryAdvanced query).title =
        some (String.intercalate " " ((WebSearch.wordsOf query).drop 2)) := by
  have hby : (WebSearch.wordsOf query).findIdx?
      (fun w => toLowerS w = "by") = none := by
    rw [List.findIdx?_eq_none_iff]
    intro w hw
    have hv := List.all_eq_true.mp h2 w hw
    simpa using hv
  have hgt : (WebSearch.wordsOf query).length > 2 := by omega
  have hge : (WebSearch.wordsOf query).length ≥ 3 := h3
  rcases hp : WebSearch.partsOf query with _ | ⟨p, tl⟩
  · constructor <;>
      simp [WebSearch.parseQueryAdvanced, hp, hby, WebSearch.heuristicTail,
        hge, hgt, h4]
  · rcases htl : tl with _ | ⟨p2, ps⟩
    · subst htl
      constructor <;>
        simp [WebSearch.parseQueryAdvanced, hp, hby, WebSearch.heuristicTail,
          hge, hgt, h4]
    · subst htl
      rw [hp] at h1
      simp at h1
      omega

/-- C8 witness: the amended rule instantiated at osho meditation techniques. -/
theorem c8_known_author_two_words_witness :
    (WebSearch.parseQueryAdvanced "osho meditation techniques").author =
        some (String.intercalate " "
          ((WebSearch.wordsOf "osho meditation techniques").take 2))
    ∧ (WebSearch.parseQueryAdvanced "osho meditation techniques").title =
        some (String.intercalate " "
          ((WebSearch.wordsOf "osho meditation techniques").drop 2)) :=
  c8_known_author_two_words "osho meditation techniques" (by decide)
    (by decide) (by decide) (by decide)

/-- C9 counterexample: with an author parsed heuristically from the
undelimited query osho meditation techniques, an oracle whose structured
search is empty but whose free-text search finds a book makes the Open
Library adapter return nothing: there is no fall back to free-text search on
zero structured results. -/
theorem c9_counterexample :
    WebSearch.searchOpenLibrary Demo.c9oracle "osho meditation techniques" 15 = []
    ∧ WebSearch.processDocs
        (Demo.c9oracle
          (WebSearch.OLRequest.general "osho meditation techniques" 30)) ≠ []
    ∧ truthyS (WebSearch.parseQueryAdvanced "osho meditation techniques").author
        = true := by
  refine ⟨by decide, by decide, by decide⟩

/-- C9 (amended): whenever a truthy author is parsed, the Open Library
adapter issues exactly the author-structured request and returns its
processed docs; no free-text request is consulted, empty or not. -/
theorem c9_no_freetext_fallback
    (oracle : WebSearch.OLRequest → Option (List WebSearch.OLDoc))
    (query : String) (n : Nat)
    (h : truthyS (WebSearch.parseQueryAdvanced query).author = true) :
    WebSearch.searchOpenLibrary oracle query n =
      WebSearch.processDocs (oracle (WebSearch.OLRequest.structured
        ((WebSearch.parseQueryAdvanced query).author.getD "")
        (if truthyS (WebSearch.parseQueryAdvanced query).title
          then (WebSearch.parseQueryAdvanced query).title else none)
        (n * 2))) := by
  unfold WebSearch.searchOpenLibrary WebSearch.olRequest
  cases ha : (WebSearch.parseQueryAdvanced query).author with
  | none => rw [ha] at h; simp [truthyS] at h
  | some a =>
      rw [ha] at h
      have hne : a ≠ "" := by simpa [truthyS] using h
      simp [ha, hne]

/-- C9 witness: the amended rule instantiated at the concrete oracle and
query. -/
theorem c9_no_freetext_fallback_witness :
    WebSearch.searchOpenLibrary Demo.c9oracle "osho meditation techniques" 15 =
      WebSearch.processDocs (Demo.c9oracle (WebSearch.OLRequest.structured
        ((WebSearch.parseQueryAdvanced "osho meditation techniques").author.getD "")
        (if truthyS (WebSearch.parseQueryAdvanced "osho meditation techniques").title
          then (WebSearch.parseQueryAdvanced "osho meditation techniques").title
          else none)
        (15 * 2))) :=
  c9_no_freetext_fallback Demo.c9oracle "osho meditation techniques" 15 (by decide)

/-- C10: every result assembled by either LLM path references a candidate of
the submitted pool (up to the aiDescription overwrite), and a response whose
matches all name unknown bookIds assembles to the empty result list, so the
evaluator cannot inject invented books. -/
theorem c10_no_invented_books (pool cat : List Schema.Book)
    (wresp1 wresp2 : AiSearch.AIResponse)
    (gresp1 gresp2 : AiSearchGrounded.AIResponse)
    (hw : (wresp2.matches').all
        (fun m => pool.all (fun b => decide (¬ b.id = m.bookId))) = true)
    (hgr : (gresp2.matches').all
        (fun m => cat.all (fun b => decide (¬ b.id = m.bookId))) = true) :
    ((AiSearch.assembleResults pool wresp1).all
        (fun r => pool.any (fun b =>
          decide (r.book = { b with aiDescription := r.book.aiDescription }))) = true)
    ∧ ((AiSearchGrounded.assembleResults cat gresp1).all
        (fun r => cat.any (fun b =>
          decide (r.book = { b with aiDescription := r.book.aiDescription }))) = true)
    ∧ AiSearch.assembleResults pool wresp2 = []
    ∧ AiSearchGrounded.assembleResults cat gresp2 = [] := by
  refine ⟨?_, ?_, ?_, ?_⟩
  · rw [List.all_eq_true]
    intro r hr
    rcases mem_web_assemble pool wresp1 r hr with ⟨m, _, _, b, hbmem, rfl⟩
    rw [List.any_eq_true]
    exact ⟨b, hbmem, by simp [AiSearch.mkResult]⟩
  · rw [List.all_eq_true]
    intro r hr
    rcases mem_grounded_assemble cat gresp1 r hr with ⟨m, _, _, b, hbmem, rfl⟩
    rw [List.any_eq_true]
    exact ⟨b, hbmem, by simp [AiSearchGrounded.mkResult]⟩
  · unfold AiSearch.assembleResults
    have hfm : (wresp2.matches'.filter
        (fun m => m.relevanceScore ≥ 50)).filterMap (fun m =>
          (AiSearch.bookMapGet pool m.bookId).map
            (fun b => AiSearch.mkResult b m)) = [] := by
      rw [List.filterMap_eq_nil_iff]
      intro m hm
      have hmem := List.mem_of_mem_filter hm
      have hids := List.all_eq_true.mp (List.all_eq_true.mp hw m hmem)
      rw [bookMapGet_eq_none pool m.bookId
        (fun b hb => by simpa using hids b hb)]
      rfl
    rw [foldl_assembleStep, hfm]
    rfl
  · unfold AiSearchGrounded.assembleResults
    have hfm : (gresp2.matches'.filter AiSearchGrounded.admitMatch).filterMap
        (fun m => (cat.find? (fun b => b.id = m.bookId)).map
          (fun b => AiSearchGrounded.mkResult b m)) = [] := by
      rw [List.filterMap_eq_nil_iff]
      intro m hm
      have hmem := List.mem_of_mem_filter hm
      have hids := List.all_eq_true.mp (List.all_eq_true.mp hgr m hmem)
      have hfind : cat.find? (fun b => b.id = m.bookId) = none := by
        rw [List.find?_eq_none]
        intro b hb
        simpa using hids b hb
      rw [hfind]
      rfl
    rw [hfm]
    rfl

/-- C10 witness: the containment and the silent drop of an invented bookId,
at concrete pools and responses. -/
theorem c10_no_invented_books_witness :
    ((AiSearch.assembleResults [Demo.dupCatalogBook] Demo.c10respKnown).all
        (fun r => [Demo.dupCatalogBook].any (fun b =>
          decide (r.book = { b with aiDescription := r.book.aiDescription }))) = true)
    ∧ ((AiSearchGrounded.assembleResults [Demo.medBook] Demo.c10groundedKnown).all
        (fun r => [Demo.medBook].any (fun b =>
          decide (r.book = { b with aiDescription := r.book.aiDescription }))) = true)
    ∧ AiSearch.assembleResults [Demo.dupCatalogBook] Demo.c10respUnknown = []
    ∧ AiSearchGrounded.assembleResults [Demo.medBook] Demo.c10groundedUnknown = [] :=
  c10_no_invented_books [Demo.dupCatalogBook] [Demo.medBook]
    Demo.c10respKnown Demo.c10respUnknown Demo.c10groundedKnown
    Demo.c10groundedUnknown (by decide) (by decide)
